import Mathlib

/-!
# bxentry: event queue and command dispatcher

A shallow embedding of `src/entry_p.h` (the typed event queue) and of
`src/cmd.cpp` (the command dispatch table), followed by theorems about them.

Conventions of the embedding:
* C++ fixed-width unsigned integers are `Nat`, signed ones are `Int`; no
  arithmetic is performed on them by the embedded code, they are only stored
  and compared, so no wrap-around occurs.
* `std::queue<AnyEvent>` is a `List AnyEvent`, front of the queue first.
* `std::optional<AnyEvent>` is `Option AnyEvent`; a member function that
  mutates the queue returns the new queue next to its result.
* Pointers (`void*`, function pointers) are their addresses, as `Nat`.
-/

namespace entry

/-- Largest value of a `uint16_t`. -/
def UINT16_MAX : Nat := 65535

/-- Handle of a window: `struct WindowHandle { uint16_t idx; }`. -/
structure WindowHandle where
  idx : Nat
deriving DecidableEq, Repr, Inhabited

/-- Handle of a gamepad: `struct GamepadHandle { uint16_t idx; }`. -/
structure GamepadHandle where
  idx : Nat
deriving DecidableEq, Repr, Inhabited

/-- Modelled from the spec: `isValid(WindowHandle)` is declared in `entry.h`,
which is not among the sources. The spec speaks of one distinguished invalid
sentinel value; `Event::Event(Enum)` stores `UINT16_MAX` for it, so a handle
is valid when its index differs from `UINT16_MAX`. -/
def isValid (_handle : WindowHandle) : Bool :=
  decide (UINT16_MAX ≠ _handle.idx)

/-- Enumerators of `GamepadAxis::Enum` (declared in `entry.h`), by value. -/
abbrev GamepadAxis.Enum := Nat

/-- Enumerators of `Key::Enum` (declared in `entry.h`), by value. -/
abbrev Key.Enum := Nat

/-- Enumerators of `MouseButton::Enum` (declared in `entry.h`), by value. -/
abbrev MouseButton.Enum := Nat

/-- Modelled from the spec: `MouseButton::None` is declared in `entry.h`,
which is not among the sources; it is the enumerator that stands for
"no button" and is taken to be the first one. -/
def MouseButton.None : MouseButton.Enum := 0

/-- Enumerators of `Suspend::Enum` (declared in `entry.h`), by value. -/
abbrev Suspend.Enum := Nat

/-- The type `bx::FilePath`, reduced to the path text it holds. -/
structure FilePath where
  path : String
deriving DecidableEq, Repr, Inhabited

/-- The array `uint8_t m_char[4]`. -/
structure Char4 where
  c0 : Nat
  c1 : Nat
  c2 : Nat
  c3 : Nat
deriving DecidableEq, Repr, Inhabited

/-- The call `bx::memCopy(dst, src, 4)` on a four byte array: every byte of
`src` is copied to the same position of the destination. -/
def memCopy4 (_dst : Char4) (src : Char4) : Char4 :=
  { c0 := src.c0, c1 := src.c1, c2 := src.c2, c3 := src.c3 }

/-- The enumeration `Event::Enum`. -/
inductive Event.Enum where
  | Axis
  | Char
  | Exit
  | Gamepad
  | Key
  | Mouse
  | Size
  | Window
  | Suspend
  | DropFile
deriving DecidableEq, Repr, Inhabited

/-- The base class `struct Event`. -/
structure Event where
  m_type : Event.Enum
  m_handle : WindowHandle
deriving DecidableEq, Repr, Inhabited

/-- Constructor `Event(Enum _type)`: the handle is the invalid sentinel. -/
def Event.ctor (_type : Event.Enum) : Event :=
  { m_type := _type, m_handle := { idx := UINT16_MAX } }

/-- Constructor `Event(Enum _type, WindowHandle _handle)`. -/
def Event.ctorHandle (_type : Event.Enum) (_handle : WindowHandle) : Event :=
  { m_type := _type, m_handle := _handle }

structure AxisEvent extends Event where
  m_axis : GamepadAxis.Enum
  m_value : Int
  m_gamepad : GamepadHandle
deriving DecidableEq, Repr, Inhabited

structure ExitEvent extends Event where
deriving DecidableEq, Repr, Inhabited

structure CharEvent extends Event where
  m_len : Nat
  m_char : Char4
deriving DecidableEq, Repr, Inhabited

structure GamepadEvent extends Event where
  m_gamepad : GamepadHandle
  m_connected : Bool
deriving DecidableEq, Repr, Inhabited

structure KeyEvent extends Event where
  m_key : Key.Enum
  m_modifiers : Nat
  m_down : Bool
deriving DecidableEq, Repr, Inhabited

structure MouseEvent extends Event where
  m_mx : Int
  m_my : Int
  m_mz : Int
  m_button : MouseButton.Enum
  m_down : Bool
  m_move : Bool
deriving DecidableEq, Repr, Inhabited

structure SizeEvent extends Event where
  m_width : Nat
  m_height : Nat
deriving DecidableEq, Repr, Inhabited

structure WindowEvent extends Event where
  m_nwh : Nat
deriving DecidableEq, Repr, Inhabited

structure SuspendEvent extends Event where
  m_state : Suspend.Enum
deriving DecidableEq, Repr, Inhabited

structure DropFileEvent extends Event where
  m_filePath : FilePath
deriving DecidableEq, Repr, Inhabited

/-! The constructors generated by `ENTRY_IMPLEMENT_EVENT(_class, _type)`:
`_class(WindowHandle _handle) : Event(_type, _handle) {}`. The payload members
are left indeterminate by the C++ constructor; here they hold the default
value of their type until the posting function assigns them. -/

def AxisEvent.ctor (_handle : WindowHandle) : AxisEvent :=
  { toEvent := Event.ctorHandle Event.Enum.Axis _handle,
    m_axis := default, m_value := default, m_gamepad := default }

def ExitEvent.ctor (_handle : WindowHandle) : ExitEvent :=
  { toEvent := Event.ctorHandle Event.Enum.Exit _handle }

def CharEvent.ctor (_handle : WindowHandle) : CharEvent :=
  { toEvent := Event.ctorHandle Event.Enum.Char _handle,
    m_len := default, m_char := default }

def GamepadEvent.ctor (_handle : WindowHandle) : GamepadEvent :=
  { toEvent := Event.ctorHandle Event.Enum.Gamepad _handle,
    m_gamepad := default, m_connected := default }

def KeyEvent.ctor (_handle : WindowHandle) : KeyEvent :=
  { toEvent := Event.ctorHandle Event.Enum.Key _handle,
    m_key := default, m_modifiers := default, m_down := default }

def MouseEvent.ctor (_handle : WindowHandle) : MouseEvent :=
  { toEvent := Event.ctorHandle Event.Enum.Mouse _handle,
    m_mx := default, m_my := default, m_mz := default,
    m_button := default, m_down := default, m_move := default }

def SizeEvent.ctor (_handle : WindowHandle) : SizeEvent :=
  { toEvent := Event.ctorHandle Event.Enum.Size _handle,
    m_width := default, m_height := default }

def WindowEvent.ctor (_handle : WindowHandle) : WindowEvent :=
  { toEvent := Event.ctorHandle Event.Enum.Window _handle, m_nwh := default }

def SuspendEvent.ctor (_handle : WindowHandle) : SuspendEvent :=
  { toEvent := Event.ctorHandle Event.Enum.Suspend _handle, m_state := default }

def DropFileEvent.ctor (_handle : WindowHandle) : DropFileEvent :=
  { toEvent := Event.ctorHandle Event.Enum.DropFile _handle, m_filePath := default }

/-- The variant `AnyEvent`, one alternative per event class, in the order of
the `std::variant` declaration. -/
inductive AnyEvent where
  | axis (ev : AxisEvent)
  | char (ev : CharEvent)
  | exit (ev : ExitEvent)
  | gamepad (ev : GamepadEvent)
  | key (ev : KeyEvent)
  | mouse (ev : MouseEvent)
  | size (ev : SizeEvent)
  | window (ev : WindowEvent)
  | suspend (ev : SuspendEvent)
  | dropFile (ev : DropFileEvent)
deriving DecidableEq, Repr, Inhabited

/-- The `Event` base of whichever alternative the variant holds: what a
generic `std::visit` lambda reads through `ev.m_type` and `ev.m_handle`. -/
def AnyEvent.base : AnyEvent → Event
  | .axis ev => ev.toEvent
  | .char ev => ev.toEvent
  | .exit ev => ev.toEvent
  | .gamepad ev => ev.toEvent
  | .key ev => ev.toEvent
  | .mouse ev => ev.toEvent
  | .size ev => ev.toEvent
  | .window ev => ev.toEvent
  | .suspend ev => ev.toEvent
  | .dropFile ev => ev.toEvent

/-- The class `EventQueue`: its only member is `std::queue<AnyEvent> m_queue`,
held front first. -/
structure EventQueue where
  m_queue : List AnyEvent
deriving DecidableEq, Repr, Inhabited

namespace EventQueue

/-- Constructor `EventQueue()`: an empty queue. -/
def ctor : EventQueue := { m_queue := [] }

/-- The call `m_queue.emplace(AnyEvent{ ev })`: one element more at the back. -/
def emplace (q : EventQueue) (ev : AnyEvent) : EventQueue :=
  { m_queue := q.m_queue ++ [ev] }

def postAxisEvent (q : EventQueue) (_handle : WindowHandle) (_gamepad : GamepadHandle)
    (_axis : GamepadAxis.Enum) (_value : Int) : EventQueue :=
  let ev := AxisEvent.ctor _handle
  let ev := { ev with m_gamepad := _gamepad }
  let ev := { ev with m_axis := _axis }
  let ev := { ev with m_value := _value }
  q.emplace (AnyEvent.axis ev)

def postCharEvent (q : EventQueue) (_handle : WindowHandle) (_len : Nat)
    (_char : Char4) : EventQueue :=
  let ev := CharEvent.ctor _handle
  let ev := { ev with m_len := _len }
  let ev := { ev with m_char := memCopy4 ev.m_char _char }
  q.emplace (AnyEvent.char ev)

def postExitEvent (q : EventQueue) : EventQueue :=
  let ev := AnyEvent.exit (ExitEvent.ctor { idx := 0 })
  q.emplace ev

def postGamepadEvent (q : EventQueue) (_handle : WindowHandle) (_gamepad : GamepadHandle)
    (_connected : Bool) : EventQueue :=
  let ev := GamepadEvent.ctor _handle
  let ev := { ev with m_gamepad := _gamepad }
  let ev := { ev with m_connected := _connected }
  q.emplace (AnyEvent.gamepad ev)

def postKeyEvent (q : EventQueue) (_handle : WindowHandle) (_key : Key.Enum)
    (_modifiers : Nat) (_down : Bool) : EventQueue :=
  let ev := KeyEvent.ctor _handle
  let ev := { ev with m_key := _key }
  let ev := { ev with m_modifiers := _modifiers }
  let ev := { ev with m_down := _down }
  q.emplace (AnyEvent.key ev)

/-- Overload `postMouseEvent(_handle, _mx, _my, _mz)`: a pure move. -/
def postMouseEvent (q : EventQueue) (_handle : WindowHandle) (_mx _my _mz : Int) :
    EventQueue :=
  let ev := MouseEvent.ctor _handle
  let ev := { ev with m_mx := _mx }
  let ev := { ev with m_my := _my }
  let ev := { ev with m_mz := _mz }
  let ev := { ev with m_button := MouseButton.None }
  let ev := { ev with m_down := false }
  let ev := { ev with m_move := true }
  q.emplace (AnyEvent.mouse ev)

/-- Overload `postMouseEvent(_handle, _mx, _my, _mz, _button, _down)`. -/
def postMouseEventButton (q : EventQueue) (_handle : WindowHandle) (_mx _my _mz : Int)
    (_button : MouseButton.Enum) (_down : Bool) : EventQueue :=
  let ev := MouseEvent.ctor _handle
  let ev := { ev with m_mx := _mx }
  let ev := { ev with m_my := _my }
  let ev := { ev with m_mz := _mz }
  let ev := { ev with m_button := _button }
  let ev := { ev with m_down := _down }
  let ev := { ev with m_move := false }
  q.emplace (AnyEvent.mouse ev)

def postSizeEvent (q : EventQueue) (_handle : WindowHandle) (_width _height : Nat) :
    EventQueue :=
  let ev := SizeEvent.ctor _handle
  let ev := { ev with m_width := _width }
  let ev := { ev with m_height := _height }
  q.emplace (AnyEvent.size ev)

def postWindowEvent (q : EventQueue) (_handle : WindowHandle) (_nwh : Nat) : EventQueue :=
  let ev := WindowEvent.ctor _handle
  let ev := { ev with m_nwh := _nwh }
  q.emplace (AnyEvent.window ev)

def postSuspendEvent (q : EventQueue) (_handle : WindowHandle) (_state : Suspend.Enum) :
    EventQueue :=
  let ev := SuspendEvent.ctor _handle
  let ev := { ev with m_state := _state }
  q.emplace (AnyEvent.suspend ev)

def postDropFileEvent (q : EventQueue) (_handle : WindowHandle) (_filePath : FilePath) :
    EventQueue :=
  let ev := DropFileEvent.ctor _handle
  let ev := { ev with m_filePath := _filePath }
  q.emplace (AnyEvent.dropFile ev)

/-- The member `poll()`: the front event, removed from the queue, or nothing
when the queue is empty. -/
def poll (q : EventQueue) : Option AnyEvent × EventQueue :=
  match q.m_queue with
  | [] => (none, q)
  | ev :: rest => (some ev, { m_queue := rest })

/-- The member `poll(WindowHandle _handle)`. -/
def pollHandle (q : EventQueue) (_handle : WindowHandle) : Option AnyEvent × EventQueue :=
  match q.m_queue with
  | [] => (none, q)
  | ev :: rest =>
    if isValid _handle then
      if ev.base.m_type == Event.Enum.Exit || ev.base.m_handle.idx == _handle.idx then
        (some ev, { m_queue := rest })
      else
        (none, q)
    else
      q.poll

end EventQueue

end entry

namespace entry

/-- One call of a posting member function of `EventQueue`, with its arguments. -/
inductive PostCall where
  | axis (_handle : WindowHandle) (_gamepad : GamepadHandle) (_axis : GamepadAxis.Enum)
      (_value : Int)
  | char (_handle : WindowHandle) (_len : Nat) (_char : Char4)
  | exit
  | gamepad (_handle : WindowHandle) (_gamepad : GamepadHandle) (_connected : Bool)
  | key (_handle : WindowHandle) (_key : Key.Enum) (_modifiers : Nat) (_down : Bool)
  | mouseMove (_handle : WindowHandle) (_mx _my _mz : Int)
  | mouseButton (_handle : WindowHandle) (_mx _my _mz : Int) (_button : MouseButton.Enum)
      (_down : Bool)
  | size (_handle : WindowHandle) (_width _height : Nat)
  | window (_handle : WindowHandle) (_nwh : Nat)
  | suspend (_handle : WindowHandle) (_state : Suspend.Enum)
  | dropFile (_handle : WindowHandle) (_filePath : FilePath)
deriving DecidableEq, Repr, Inhabited

/-- Performs one posting call on a queue. -/
def PostCall.apply (q : EventQueue) : PostCall → EventQueue
  | .axis h g a v => q.postAxisEvent h g a v
  | .char h l c => q.postCharEvent h l c
  | .exit => q.postExitEvent
  | .gamepad h g c => q.postGamepadEvent h g c
  | .key h k m d => q.postKeyEvent h k m d
  | .mouseMove h x y z => q.postMouseEvent h x y z
  | .mouseButton h x y z b d => q.postMouseEventButton h x y z b d
  | .size h w ht => q.postSizeEvent h w ht
  | .window h n => q.postWindowEvent h n
  | .suspend h s => q.postSuspendEvent h s
  | .dropFile h p => q.postDropFileEvent h p

/-- The event a posting call describes: the kind tag of the operation, the
window handle passed in (window 0 for Exit, which takes none) and the payload
members equal to the arguments. -/
def PostCall.event : PostCall → AnyEvent
  | .axis h g a v =>
    .axis { m_type := .Axis, m_handle := h, m_axis := a, m_value := v, m_gamepad := g }
  | .char h l c => .char { m_type := .Char, m_handle := h, m_len := l, m_char := c }
  | .exit => .exit { m_type := .Exit, m_handle := { idx := 0 } }
  | .gamepad h g c =>
    .gamepad { m_type := .Gamepad, m_handle := h, m_gamepad := g, m_connected := c }
  | .key h k m d =>
    .key { m_type := .Key, m_handle := h, m_key := k, m_modifiers := m, m_down := d }
  | .mouseMove h x y z =>
    .mouse { m_type := .Mouse, m_handle := h, m_mx := x, m_my := y, m_mz := z,
             m_button := MouseButton.None, m_down := false, m_move := true }
  | .mouseButton h x y z b d =>
    .mouse { m_type := .Mouse, m_handle := h, m_mx := x, m_my := y, m_mz := z,
             m_button := b, m_down := d, m_move := false }
  | .size h w ht => .size { m_type := .Size, m_handle := h, m_width := w, m_height := ht }
  | .window h n => .window { m_type := .Window, m_handle := h, m_nwh := n }
  | .suspend h s => .suspend { m_type := .Suspend, m_handle := h, m_state := s }
  | .dropFile h p => .dropFile { m_type := .DropFile, m_handle := h, m_filePath := p }

/-- Performs a sequence of posting calls, first call first. -/
def postAll (q : EventQueue) (calls : List PostCall) : EventQueue :=
  calls.foldl PostCall.apply q

/-- Calls `poll()` the given number of times; the results come in call order. -/
def pollN : Nat → EventQueue → List (Option AnyEvent) × EventQueue
  | 0, q => ([], q)
  | n + 1, q =>
    let r := q.poll
    let rs := pollN n r.2
    (r.1 :: rs.1, rs.2)

/-- One call on the public interface of the queue. -/
inductive QueueOp where
  | post (c : PostCall)
  | poll
  | pollHandle (_handle : WindowHandle)
deriving DecidableEq, Repr, Inhabited

/-- Performs one call; a posting call returns nothing. -/
def QueueOp.step (q : EventQueue) : QueueOp → Option AnyEvent × EventQueue
  | .post c => (none, c.apply q)
  | .poll => q.poll
  | .pollHandle h => q.pollHandle h

/-- Performs a sequence of calls; yields the events the successful polls
returned, in call order, and the final queue. -/
def runOps : EventQueue → List QueueOp → List AnyEvent × EventQueue
  | q, [] => ([], q)
  | q, op :: ops =>
    let r := op.step q
    let rs := runOps r.2 ops
    (r.1.toList ++ rs.1, rs.2)

/-- The events posted by a sequence of calls, in posting order. -/
def postedEvents : List QueueOp → List AnyEvent
  | [] => []
  | .post c :: ops => c.event :: postedEvents ops
  | _ :: ops => postedEvents ops

end entry

/-! ## Command dispatcher (`src/cmd.cpp`) -/

/-- The function pointer type `ConsoleFn`, as the address of the handler. -/
abbrev ConsoleFn := Nat

/-- The functions of the external library bx that `CmdContext` calls.
`hash s` is `bx::hash<bx::HashMurmur2A>(s, bx::strLen(s))`, a 32-bit value.
`tokenizeCommandLine cmd` is `bx::tokenizeCommandLine(cmd, commandLine, size,
argc, argv, BX_COUNTOF(argv), newline)` with the 1024 byte buffer and the 64
entry `argv` array of `exec`: it yields the tokens written to `argv` (their
count is `argc`) and the string view that follows the sub-command. -/
structure BxLib where
  hash : String → Nat
  tokenizeCommandLine : String → List String × String

/-- The member `struct Func { ConsoleFn m_fn; void* m_userData; }`. -/
structure CmdContext.Func where
  m_fn : ConsoleFn
  m_userData : Nat
deriving DecidableEq, Repr, Inhabited

/-- The type `CmdLookup`, `stl::unordered_map<uint32_t, Func>`, as the list of
its key and value pairs. -/
abbrev CmdContext.CmdLookup := List (Nat × CmdContext.Func)

/-- The call `m_lookup.find(key)`: the value stored under `key`, or nothing
(the iterator `end()`). -/
def CmdContext.CmdLookup.find (m : CmdContext.CmdLookup) (key : Nat) :
    Option CmdContext.Func :=
  match m with
  | [] => none
  | (k, v) :: rest => if k = key then some v else CmdContext.CmdLookup.find rest key

/-- Modelled from the spec: `stl::unordered_map::insert` belongs to the tinystl
headers, which are not among the sources. The call
`m_lookup.insert(stl::make_pair(key, value))` is the insertion of a unique-key
map: a pair whose key is already present is not inserted and the stored value
stays (the spec: "not silently overwritten"); otherwise the table grows by
the one pair. -/
def CmdContext.CmdLookup.insert (m : CmdContext.CmdLookup) (key : Nat)
    (value : CmdContext.Func) : CmdContext.CmdLookup :=
  match CmdContext.CmdLookup.find m key with
  | some _ => m
  | none => m ++ [(key, value)]

/-- The class `CmdContext`. -/
structure CmdContext where
  m_lookup : CmdContext.CmdLookup
deriving DecidableEq, Repr, Inhabited

/-- What `exec` does that is visible outside of it, in order of occurrence. -/
inductive CmdEffect where
  -- the call `fn.m_fn(this, fn.m_userData, argc, argv)`
  | invoke (m_fn : ConsoleFn) (m_userData : Nat) (argc : Int) (argv : List String)
  -- the output of `DBG("Command '%s' doesn't exist.", cmd.getPtr())`
  | dbgNotExist (cmd : String)
  -- the output of `DBG("Failed '%s' err: %d.", cmd.getPtr(), err)`
  | dbgFailed (cmd : String) (err : Int)
deriving DecidableEq, Repr, Inhabited

/-- The behaviour of the registered handlers: the `int` a handler returns
when it is called with the given user data, `argc` and `argv`, after the
effects that came before. The code returned may thus depend on everything
that happened earlier in the run. Handlers are taken not to touch the
dispatch table. -/
abbrev Handlers := List CmdEffect → ConsoleFn → Nat → Int → List String → Int

namespace CmdContext

/-- Constructor `CmdContext()`: an empty table. -/
def ctor : CmdContext := { m_lookup := [] }

/-- The condition of the `BX_CHECK` in `add`. -/
def addCheck (bx : BxLib) (ctx : CmdContext) (_name : String) : Bool :=
  (ctx.m_lookup.find (bx.hash _name)).isNone

/-- The member `add(_name, _fn, _userData)`, the `BX_CHECK` aside. -/
def add (bx : BxLib) (ctx : CmdContext) (_name : String) (_fn : ConsoleFn)
    (_userData : Nat) : CmdContext :=
  let cmd := bx.hash _name
  let fn : Func := { m_fn := _fn, m_userData := _userData }
  { m_lookup := ctx.m_lookup.insert cmd fn }

/-- The body of the loop of `exec` for the sub-command at the start of `cmd`:
yields the effects so far and the view `next` that the loop goes on with. -/
def execBody (bx : BxLib) (run : Handlers) (ctx : CmdContext) (cmd : String)
    (log : List CmdEffect) : List CmdEffect × String :=
  let tok := bx.tokenizeCommandLine cmd
  let argv := tok.1
  let next := tok.2
  let argc : Int := argv.length
  match argv with
  | [] => (log, next)
  | argv0 :: _ =>
    let err : Int := -1
    let cmdc := bx.hash argv0
    let r : Int × List CmdEffect :=
      match ctx.m_lookup.find cmdc with
      | some fn =>
        (run log fn.m_fn fn.m_userData argc argv,
         log ++ [CmdEffect.invoke fn.m_fn fn.m_userData argc argv])
      | none => (err, log)
    let err := r.1
    let log := r.2
    if err = 0 then (log, next)
    else if err = -1 then (log ++ [CmdEffect.dbgNotExist cmd], next)
    else (log ++ [CmdEffect.dbgFailed cmd err], next)

/-- The loop of `exec`. The tokenizer is a parameter, so the number of rounds
is bounded by `fuel`: nothing is returned when the view is still not empty
after `fuel` rounds. -/
def execLoop (bx : BxLib) (run : Handlers) (ctx : CmdContext) :
    Nat → String → List CmdEffect → Option (List CmdEffect)
  | 0, cmd, log => if cmd.isEmpty then some log else none
  | fuel + 1, cmd, log =>
    if cmd.isEmpty then some log
    else
      let r := execBody bx run ctx cmd log
      execLoop bx run ctx fuel r.2 r.1

/-- The member `exec(_cmd)`: the effects it has, in order. -/
def exec (bx : BxLib) (run : Handlers) (ctx : CmdContext) (fuel : Nat) (_cmd : String) :
    Option (List CmdEffect) :=
  execLoop bx run ctx fuel _cmd []

end CmdContext

/-- One registration: the arguments of a call of `add`. -/
structure Registration where
  name : String
  fn : ConsoleFn
  userData : Nat
deriving DecidableEq, Repr, Inhabited

/-- Builds a dispatch table by calling `add` once per registration, first
registration first. -/
def registerAll (bx : BxLib) (ctx : CmdContext) (regs : List Registration) : CmdContext :=
  regs.foldl (fun c r => c.add bx r.name r.fn r.userData) ctx

/-- Tells the handler calls from the diagnostics. -/
def CmdEffect.isInvoke : CmdEffect → Bool
  | .invoke _ _ _ _ => true
  | _ => false

/-- The handler calls among the effects, in order. -/
def invocations (log : List CmdEffect) : List CmdEffect :=
  log.filter CmdEffect.isInvoke

/-- The diagnostics among the effects, in order. -/
def diagnostics (log : List CmdEffect) : List CmdEffect :=
  log.filter (fun e => !e.isInvoke)

/-- The sub-commands of a command line, left to right, as the loop of `exec`
meets them: each with the view it starts at and its tokens. Bounded by
`fuel` as the loop is. -/
def subCommands (bx : BxLib) : Nat → String → Option (List (String × List String))
  | 0, cmd => if cmd.isEmpty then some [] else none
  | fuel + 1, cmd =>
    if cmd.isEmpty then some []
    else
      match subCommands bx fuel (bx.tokenizeCommandLine cmd).2 with
      | some subs => some ((cmd, (bx.tokenizeCommandLine cmd).1) :: subs)
      | none => none

/-- The handler call that a sub-command with the given tokens leads to: none
when there is no token or when the hash of the first token is not in the
table. -/
def expectedCall (bx : BxLib) (ctx : CmdContext) (argv : List String) : Option CmdEffect :=
  match argv with
  | [] => none
  | argv0 :: _ =>
    match ctx.m_lookup.find (bx.hash argv0) with
    | some fn => some (CmdEffect.invoke fn.m_fn fn.m_userData argv.length argv)
    | none => none

/-! Sample instances of the parameters, for the examples further down. -/

/-- A sample hash: a polynomial hash of the characters, reduced to 32 bits. -/
def sampleHash (s : String) : Nat :=
  s.toList.foldl (fun h c => (h * 31 + c.toNat) % 2 ^ 32) 0

/-- A sample tokenizer, given by its results on the command lines of the
examples: the tokens of the first line and the view after it. -/
def sampleTokenize (cmd : String) : List String × String :=
  if cmd = "name arg1 arg2" then (["name", "arg1", "arg2"], "")
  else if cmd = "a\nb" then (["a"], "b")
  else if cmd = "a" then (["a"], "")
  else if cmd = "b" then (["b"], "")
  else if cmd = "unknown\nb" then (["unknown"], "b")
  else if cmd = "\nb" then ([], "b")
  else ([], "")

/-- The sample library. -/
def sampleBx : BxLib := { hash := sampleHash, tokenizeCommandLine := sampleTokenize }

/-- Sample registrations: three commands with handlers at distinct addresses. -/
def sampleRegs : List Registration :=
  [{ name := "a", fn := 100, userData := 7 },
   { name := "name", fn := 200, userData := 8 },
   { name := "b", fn := 300, userData := 9 }]

/-- The sample dispatch table. -/
def sampleCtx : CmdContext := registerAll sampleBx CmdContext.ctor sampleRegs

/-- Sample handlers: the handler at address 100 returns 5, the one at 200
returns 0, every other one returns 3. -/
def sampleRun : Handlers :=
  fun _ fn _ _ _ => if fn = 100 then 5 else if fn = 200 then 0 else 3

/-- Sample handlers that all return the same code. -/
def constRun (code : Int) : Handlers :=
  fun _ _ _ _ _ => code

/-- A sample tokenizer for a line whose first token is not a registered name
but has the hash of one. -/
def collidingTokenize (cmd : String) : List String × String :=
  if cmd = "BB x" then (["BB", "x"], "")
  else ([], "")

/-- The sample library with the colliding line. Under `sampleHash` the strings
"Aa" and "BB" have the same hash, 2112. -/
def collidingBx : BxLib := { hash := sampleHash, tokenizeCommandLine := collidingTokenize }

/-- A sample table with the one command "Aa". -/
def collidingCtx : CmdContext :=
  registerAll collidingBx CmdContext.ctor [{ name := "Aa", fn := 400, userData := 11 }]

/-! ## Event queue: auxiliary facts -/

namespace entry

theorem PostCall.apply_eq (q : EventQueue) (c : PostCall) :
    c.apply q = { m_queue := q.m_queue ++ [c.event] } := by
  cases c <;> rfl

theorem postAll_queue (calls : List PostCall) (q : EventQueue) :
    (postAll q calls).m_queue = q.m_queue ++ calls.map PostCall.event := by
  induction calls generalizing q with
  | nil => simp [postAll]
  | cons c cs ih =>
    have h := ih (c.apply q)
    simp only [postAll, List.foldl_cons] at h ⊢
    rw [h, PostCall.apply_eq]
    simp

theorem pollN_list (l : List AnyEvent) :
    pollN l.length { m_queue := l } = (l.map some, { m_queue := [] }) := by
  induction l with
  | nil => rfl
  | cons ev rest ih =>
    simp only [List.length_cons, pollN, EventQueue.poll, ih, List.map_cons]

theorem runOps_conserves (ops : List QueueOp) (q : EventQueue) :
    (runOps q ops).1 ++ (runOps q ops).2.m_queue = q.m_queue ++ postedEvents ops := by
  induction ops generalizing q with
  | nil => simp [runOps, postedEvents]
  | cons op ops ih =>
    cases op with
    | post c =>
      simp only [runOps, QueueOp.step, postedEvents, Option.toList, List.nil_append]
      rw [ih, PostCall.apply_eq]
      simp
    | poll =>
      obtain ⟨l⟩ := q
      cases l with
      | nil =>
        simp only [runOps, QueueOp.step, EventQueue.poll, postedEvents, Option.toList,
          List.nil_append]
        exact ih _
      | cons ev rest =>
        simp only [runOps, QueueOp.step, EventQueue.poll, postedEvents, Option.toList,
          List.cons_append, List.nil_append]
        rw [ih]
    | pollHandle h =>
      obtain ⟨l⟩ := q
      cases l with
      | nil =>
        simp only [runOps, QueueOp.step, EventQueue.pollHandle, postedEvents, Option.toList,
          List.nil_append]
        exact ih _
      | cons ev rest =>
        simp only [runOps, QueueOp.step, EventQueue.pollHandle, EventQueue.poll, postedEvents]
        split_ifs
        · simp only [Option.toList, List.cons_append, List.nil_append]
          rw [ih]
        · simp only [Option.toList, List.nil_append]
          exact ih _
        · simp only [Option.toList, List.cons_append, List.nil_append]
          rw [ih]

end entry

/-! ## Event queue: the contract -/

namespace entry

/-- C1, the FIFO law: after any sequence of posting calls on an empty queue,
as many calls of `poll()` as there were posts return, call by call, the posted
events in posting order, each one present, and leave the queue empty. -/
theorem fifo_law (calls : List PostCall) :
    pollN calls.length (postAll EventQueue.ctor calls)
      = (calls.map (fun c => some c.event), EventQueue.ctor) := by
  have hq : postAll EventQueue.ctor calls = { m_queue := calls.map PostCall.event } := by
    have h := postAll_queue calls EventQueue.ctor
    cases hp : postAll EventQueue.ctor calls with
    | mk l =>
      rw [hp] at h
      simp only [EventQueue.ctor, List.nil_append] at h
      rw [h]
  have hl : calls.length = (calls.map PostCall.event).length := by simp
  rw [hq, hl, pollN_list]
  simp [EventQueue.ctor, Function.comp_def]

/-- C2, head-of-line filtered poll: on a queue with front event `ev`, with a
valid handle `h`, `poll(h)` returns `ev` and removes exactly it exactly when
`ev` is an Exit event or is owned by `h`; in every other case it returns no
event and leaves the whole queue as it was, whatever stands behind the front. -/
theorem pollHandle_head_of_line (ev : AnyEvent) (rest : List AnyEvent) (h : WindowHandle)
    (hv : isValid h = true) :
    ((EventQueue.mk (ev :: rest)).pollHandle h = (some ev, EventQueue.mk rest)
        ↔ (ev.base.m_type = Event.Enum.Exit ∨ ev.base.m_handle.idx = h.idx))
    ∧ (¬ (ev.base.m_type = Event.Enum.Exit ∨ ev.base.m_handle.idx = h.idx)
        → (EventQueue.mk (ev :: rest)).pollHandle h = (none, EventQueue.mk (ev :: rest))) := by
  by_cases hc : ev.base.m_type = Event.Enum.Exit ∨ ev.base.m_handle.idx = h.idx
  · have hb : (ev.base.m_type == Event.Enum.Exit || ev.base.m_handle.idx == h.idx) = true := by
      simpa using hc
    simp [EventQueue.pollHandle, hv, hb, hc]
  · have hb : (ev.base.m_type == Event.Enum.Exit || ev.base.m_handle.idx == h.idx) = false := by
      simpa using hc
    simp [EventQueue.pollHandle, hv, hb, hc]

/-- Witness of C2: a Key event of window 1 in front of a Key event of window 2;
polling window 1 takes the front, and only because it is owned by window 1. -/
theorem pollHandle_head_of_line_witness :
    isValid { idx := 1 } = true
    ∧ (((EventQueue.mk [(PostCall.key { idx := 1 } 5 0 true).event,
            (PostCall.key { idx := 2 } 6 0 true).event]).pollHandle { idx := 1 }
          = (some (PostCall.key { idx := 1 } 5 0 true).event,
             EventQueue.mk [(PostCall.key { idx := 2 } 6 0 true).event])
        ↔ ((PostCall.key { idx := 1 } 5 0 true).event.base.m_type = Event.Enum.Exit
            ∨ (PostCall.key { idx := 1 } 5 0 true).event.base.m_handle.idx
                = (WindowHandle.mk 1).idx))
      ∧ (¬ ((PostCall.key { idx := 1 } 5 0 true).event.base.m_type = Event.Enum.Exit
            ∨ (PostCall.key { idx := 1 } 5 0 true).event.base.m_handle.idx
                = (WindowHandle.mk 1).idx)
        → (EventQueue.mk [(PostCall.key { idx := 1 } 5 0 true).event,
            (PostCall.key { idx := 2 } 6 0 true).event]).pollHandle { idx := 1 }
          = (none, EventQueue.mk [(PostCall.key { idx := 1 } 5 0 true).event,
            (PostCall.key { idx := 2 } 6 0 true).event]))) :=
  ⟨by decide,
   pollHandle_head_of_line (PostCall.key { idx := 1 } 5 0 true).event
     [(PostCall.key { idx := 2 } 6 0 true).event] { idx := 1 } (by decide)⟩

/-- C3: with distinct valid handles `W1`, `W2`, and three calls posting events
that are not Exit events, owned by `W1`, `W2`, `W1` in this order, on an empty
queue: the first `poll(W1)` returns the first event, the next `poll(W1)`
returns no event, and the queue then still holds the second and the third
event, in this order. -/
theorem pollHandle_blocked_behind_other_window (W1 W2 : WindowHandle) (c1 c2 c3 : PostCall)
    (hW1 : isValid W1 = true) (_hW2 : isValid W2 = true) (hne : W1 ≠ W2)
    (_h1 : c1.event.base.m_type ≠ Event.Enum.Exit) (o1 : c1.event.base.m_handle = W1)
    (h2 : c2.event.base.m_type ≠ Event.Enum.Exit) (o2 : c2.event.base.m_handle = W2)
    (_h3 : c3.event.base.m_type ≠ Event.Enum.Exit) (_o3 : c3.event.base.m_handle = W1) :
    ((postAll EventQueue.ctor [c1, c2, c3]).pollHandle W1).1 = some c1.event
    ∧ ((((postAll EventQueue.ctor [c1, c2, c3]).pollHandle W1).2).pollHandle W1).1 = none
    ∧ ((((postAll EventQueue.ctor [c1, c2, c3]).pollHandle W1).2).pollHandle W1).2
        = EventQueue.mk [c2.event, c3.event] := by
  have hq : postAll EventQueue.ctor [c1, c2, c3]
      = EventQueue.mk [c1.event, c2.event, c3.event] := by
    simp [postAll, PostCall.apply_eq, EventQueue.ctor]
  have hidx : ¬ (c2.event.base.m_handle.idx = W1.idx) := by
    intro hh
    apply hne
    rw [o2] at hh
    cases W1
    cases W2
    simp_all
  have hfirst : (EventQueue.mk [c1.event, c2.event, c3.event]).pollHandle W1
      = (some c1.event, EventQueue.mk [c2.event, c3.event]) := by
    simp [EventQueue.pollHandle, hW1, o1]
  have hsecond : (EventQueue.mk [c2.event, c3.event]).pollHandle W1
      = (none, EventQueue.mk [c2.event, c3.event]) := by
    simp [EventQueue.pollHandle, hW1, h2, hidx]
  rw [hq, hfirst]
  simp [hsecond]

/-- Witness of C3: Key events of windows 1, 2 and 1. -/
theorem pollHandle_blocked_behind_other_window_witness :
    ((postAll EventQueue.ctor [PostCall.key { idx := 1 } 5 0 true,
        PostCall.size { idx := 2 } 640 480, PostCall.mouseMove { idx := 1 } 3 4 0]).pollHandle
          { idx := 1 }).1 = some (PostCall.key { idx := 1 } 5 0 true).event
    ∧ ((((postAll EventQueue.ctor [PostCall.key { idx := 1 } 5 0 true,
        PostCall.size { idx := 2 } 640 480, PostCall.mouseMove { idx := 1 } 3 4 0]).pollHandle
          { idx := 1 }).2).pollHandle { idx := 1 }).1 = none
    ∧ ((((postAll EventQueue.ctor [PostCall.key { idx := 1 } 5 0 true,
        PostCall.size { idx := 2 } 640 480, PostCall.mouseMove { idx := 1 } 3 4 0]).pollHandle
          { idx := 1 }).2).pollHandle { idx := 1 }).2
        = EventQueue.mk [(PostCall.size { idx := 2 } 640 480).event,
            (PostCall.mouseMove { idx := 1 } 3 4 0).event] :=
  pollHandle_blocked_behind_other_window { idx := 1 } { idx := 2 }
    (PostCall.key { idx := 1 } 5 0 true) (PostCall.size { idx := 2 } 640 480)
    (PostCall.mouseMove { idx := 1 } 3 4 0)
    (by decide) (by decide) (by decide) (by decide) rfl (by decide) rfl (by decide) rfl

/-- C4: an Exit event at the front of the queue is returned and removed by
`poll(h)` for every handle `h`, valid or not, equal to its own handle or not. -/
theorem pollHandle_exit_any_handle (ev : AnyEvent) (rest : List AnyEvent) (h : WindowHandle)
    (hexit : ev.base.m_type = Event.Enum.Exit) :
    (EventQueue.mk (ev :: rest)).pollHandle h = (some ev, EventQueue.mk rest) := by
  by_cases hv : isValid h = true
  · simp [EventQueue.pollHandle, hv, hexit]
  · simp [EventQueue.pollHandle, hv, EventQueue.poll]

/-- Witness of C4: the event posted by `postExitEvent` (owned by window 0),
followed by a Key event, polled with handle 7. -/
theorem pollHandle_exit_any_handle_witness :
    ((EventQueue.ctor.postExitEvent).postKeyEvent { idx := 3 } 5 0 true).pollHandle { idx := 7 }
      = (some (AnyEvent.exit (ExitEvent.ctor { idx := 0 })),
         EventQueue.ctor.postKeyEvent { idx := 3 } 5 0 true) :=
  pollHandle_exit_any_handle (AnyEvent.exit (ExitEvent.ctor { idx := 0 }))
    [(PostCall.key { idx := 3 } 5 0 true).event] { idx := 7 } rfl

/-- C5: with the invalid sentinel handle, `poll(h)` is `poll()`: same returned
optional event, same resulting queue, on every queue. -/
theorem pollHandle_sentinel_eq_poll (q : EventQueue) :
    q.pollHandle { idx := UINT16_MAX } = q.poll := by
  obtain ⟨l⟩ := q
  cases l with
  | nil => rfl
  | cons ev rest => simp [EventQueue.pollHandle, isValid]

/-- C6: on the empty queue `poll()` and `poll(h)`, for every handle `h`, return
no event and leave the queue empty; both are total functions whose only
results are an optional event and a queue. -/
theorem poll_empty :
    EventQueue.ctor.poll = (none, EventQueue.ctor)
    ∧ ∀ h : WindowHandle, EventQueue.ctor.pollHandle h = (none, EventQueue.ctor) :=
  ⟨rfl, fun _ => rfl⟩

/-- C7, global order: for every sequence of posting calls, `poll()` calls and
`poll(h)` calls on an empty queue, the events returned by the polls, in call
order, followed by the events left in the queue, front to back, are the
posted events in posting order. -/
theorem mixed_operations_keep_order (ops : List QueueOp) :
    (runOps EventQueue.ctor ops).1 ++ (runOps EventQueue.ctor ops).2.m_queue
      = postedEvents ops := by
  have h := runOps_conserves ops EventQueue.ctor
  simpa [EventQueue.ctor] using h

end entry

/-! ## Command dispatcher: auxiliary facts -/

namespace CmdContext

theorem CmdLookup.find_append (m : CmdLookup) (k : Nat) (v : Func) (key : Nat) :
    CmdLookup.find (m ++ [(k, v)]) key
      = match CmdLookup.find m key with
        | some w => some w
        | none => if k = key then some v else none := by
  induction m with
  | nil => simp [CmdLookup.find]
  | cons p rest ih =>
    obtain ⟨k0, v0⟩ := p
    by_cases hk : k0 = key
    · simp [CmdLookup.find, hk]
    · simp only [List.cons_append, CmdLookup.find, hk, if_false]
      exact ih

theorem CmdLookup.find_insert_of_some (m : CmdLookup) (k : Nat) (v w : Func) (key : Nat)
    (h : CmdLookup.find m key = some w) :
    CmdLookup.find (CmdLookup.insert m k v) key = some w := by
  unfold CmdLookup.insert
  cases hk : CmdLookup.find m k with
  | some u => simpa using h
  | none =>
    simp only []
    rw [CmdLookup.find_append, h]

theorem CmdLookup.find_insert_self (m : CmdLookup) (k : Nat) (v : Func)
    (h : CmdLookup.find m k = none) :
    CmdLookup.find (CmdLookup.insert m k v) k = some v := by
  unfold CmdLookup.insert
  rw [h]
  simp only []
  rw [CmdLookup.find_append, h]
  simp

theorem CmdLookup.find_insert_of_ne (m : CmdLookup) (k : Nat) (v : Func) (key : Nat)
    (hne : k ≠ key) :
    CmdLookup.find (CmdLookup.insert m k v) key = CmdLookup.find m key := by
  unfold CmdLookup.insert
  cases hk : CmdLookup.find m k with
  | some u => rfl
  | none =>
    simp only []
    rw [CmdLookup.find_append]
    cases CmdLookup.find m key with
    | some w => rfl
    | none => simp [hne]

end CmdContext

theorem registerAll_keeps (bx : BxLib) (regs : List Registration) (ctx : CmdContext)
    (key : Nat) (w : CmdContext.Func) (h : ctx.m_lookup.find key = some w) :
    (registerAll bx ctx regs).m_lookup.find key = some w := by
  induction regs generalizing ctx with
  | nil => simpa [registerAll] using h
  | cons r rs ih =>
    simp only [registerAll, List.foldl_cons]
    apply ih
    simp only [CmdContext.add]
    exact CmdContext.CmdLookup.find_insert_of_some _ _ _ _ _ h

theorem registerAll_find (bx : BxLib) (regs : List Registration) (ctx : CmdContext)
    (hnd : (regs.map (fun r => bx.hash r.name)).Nodup)
    (hfresh : ∀ r ∈ regs, ctx.m_lookup.find (bx.hash r.name) = none)
    (r : Registration) (hr : r ∈ regs) :
    (registerAll bx ctx regs).m_lookup.find (bx.hash r.name)
      = some { m_fn := r.fn, m_userData := r.userData } := by
  induction regs generalizing ctx with
  | nil => simp at hr
  | cons r0 rs ih =>
    simp only [List.map_cons, List.nodup_cons, List.mem_map, not_exists, not_and] at hnd
    obtain ⟨hr0, hrs⟩ := hnd
    have hstep : registerAll bx ctx (r0 :: rs)
        = registerAll bx (ctx.add bx r0.name r0.fn r0.userData) rs := by
      simp [registerAll]
    rw [hstep]
    rcases List.mem_cons.mp hr with heq | hmem
    · subst heq
      apply registerAll_keeps
      simp only [CmdContext.add]
      exact CmdContext.CmdLookup.find_insert_self _ _ _ (hfresh r (List.mem_cons_self _ _))
    · apply ih _ hrs _ hmem
      intro r1 hr1
      simp only [CmdContext.add]
      rw [CmdContext.CmdLookup.find_insert_of_ne]
      · exact hfresh r1 (List.mem_cons_of_mem _ hr1)
      · intro heq
        exact hr0 r1 hr1 heq.symm

theorem execLoop_step (bx : BxLib) (run : Handlers) (ctx : CmdContext) (fuel : Nat)
    (cmd : String) (log : List CmdEffect) (hcmd : cmd.isEmpty = false) :
    CmdContext.execLoop bx run ctx (fuel + 1) cmd log
      = CmdContext.execLoop bx run ctx fuel (CmdContext.execBody bx run ctx cmd log).2
          (CmdContext.execBody bx run ctx cmd log).1 := by
  simp [CmdContext.execLoop, hcmd]

theorem execLoop_done (bx : BxLib) (run : Handlers) (ctx : CmdContext) (fuel : Nat)
    (cmd : String) (log : List CmdEffect) (hcmd : cmd.isEmpty = true) :
    CmdContext.execLoop bx run ctx fuel cmd log = some log := by
  cases fuel <;> simp [CmdContext.execLoop, hcmd]

theorem execBody_next (bx : BxLib) (run : Handlers) (ctx : CmdContext)
    (cmd : String) (log : List CmdEffect) :
    (CmdContext.execBody bx run ctx cmd log).2 = (bx.tokenizeCommandLine cmd).2 := by
  unfold CmdContext.execBody
  simp only []
  split
  · rfl
  · split_ifs <;> rfl

theorem execBody_found (bx : BxLib) (run : Handlers) (ctx : CmdContext)
    (cmd : String) (log : List CmdEffect) (argv0 : String) (rest : List String)
    (fn : CmdContext.Func)
    (htok : (bx.tokenizeCommandLine cmd).1 = argv0 :: rest)
    (hfind : ctx.m_lookup.find (bx.hash argv0) = some fn) :
    (CmdContext.execBody bx run ctx cmd log).1
      = log ++ [CmdEffect.invoke fn.m_fn fn.m_userData ((argv0 :: rest).length : Nat)
                  (argv0 :: rest)]
          ++ (if run log fn.m_fn fn.m_userData ((argv0 :: rest).length : Nat) (argv0 :: rest) = 0
              then []
              else if run log fn.m_fn fn.m_userData ((argv0 :: rest).length : Nat)
                        (argv0 :: rest) = -1
              then [CmdEffect.dbgNotExist cmd]
              else [CmdEffect.dbgFailed cmd
                      (run log fn.m_fn fn.m_userData ((argv0 :: rest).length : Nat)
                        (argv0 :: rest))]) := by
  unfold CmdContext.execBody
  simp only [htok, hfind]
  split_ifs <;> simp

theorem execBody_missing (bx : BxLib) (run : Handlers) (ctx : CmdContext)
    (cmd : String) (log : List CmdEffect) (argv0 : String) (rest : List String)
    (htok : (bx.tokenizeCommandLine cmd).1 = argv0 :: rest)
    (hfind : ctx.m_lookup.find (bx.hash argv0) = none) :
    (CmdContext.execBody bx run ctx cmd log).1 = log ++ [CmdEffect.dbgNotExist cmd] := by
  unfold CmdContext.execBody
  simp [htok, hfind]

theorem execBody_no_token (bx : BxLib) (run : Handlers) (ctx : CmdContext)
    (cmd : String) (log : List CmdEffect)
    (htok : (bx.tokenizeCommandLine cmd).1 = []) :
    (CmdContext.execBody bx run ctx cmd log).1 = log := by
  unfold CmdContext.execBody
  simp [htok]

theorem execBody_invocations (bx : BxLib) (run : Handlers) (ctx : CmdContext)
    (cmd : String) (log : List CmdEffect) :
    invocations (CmdContext.execBody bx run ctx cmd log).1
      = invocations log ++ (expectedCall bx ctx (bx.tokenizeCommandLine cmd).1).toList := by
  cases htok : (bx.tokenizeCommandLine cmd).1 with
  | nil =>
    rw [execBody_no_token bx run ctx cmd log htok]
    simp [expectedCall]
  | cons argv0 rest =>
    cases hfind : ctx.m_lookup.find (bx.hash argv0) with
    | none =>
      rw [execBody_missing bx run ctx cmd log argv0 rest htok hfind]
      simp [expectedCall, hfind, invocations, CmdEffect.isInvoke]
    | some fn =>
      rw [execBody_found bx run ctx cmd log argv0 rest fn htok hfind]
      simp only [expectedCall, hfind, invocations, List.filter_append, Option.toList]
      split_ifs <;> simp [CmdEffect.isInvoke]

theorem execLoop_invocations (bx : BxLib) (run : Handlers) (ctx : CmdContext) (fuel : Nat) :
    ∀ (cmd : String) (log : List CmdEffect) (subs : List (String × List String)),
      subCommands bx fuel cmd = some subs →
      ∃ out, CmdContext.execLoop bx run ctx fuel cmd log = some out
        ∧ invocations out
            = invocations log ++ subs.filterMap (fun s => expectedCall bx ctx s.2) := by
  induction fuel with
  | zero =>
    intro cmd log subs hsubs
    by_cases hcmd : cmd.isEmpty = true
    · simp only [subCommands, hcmd, if_true, Option.some.injEq] at hsubs
      subst hsubs
      exact ⟨log, execLoop_done bx run ctx 0 cmd log hcmd, by simp⟩
    · simp [subCommands, hcmd] at hsubs
  | succ fuel ih =>
    intro cmd log subs hsubs
    by_cases hcmd : cmd.isEmpty = true
    · simp only [subCommands, hcmd, if_true, Option.some.injEq] at hsubs
      subst hsubs
      exact ⟨log, execLoop_done bx run ctx (fuel + 1) cmd log hcmd, by simp⟩
    · have hcmd2 : cmd.isEmpty = false := by simpa using hcmd
      simp only [subCommands, hcmd2] at hsubs
      cases hrest : subCommands bx fuel (bx.tokenizeCommandLine cmd).2 with
      | none => simp [hrest] at hsubs
      | some rest =>
        simp only [hrest, Bool.false_eq_true, if_false, Option.some.injEq] at hsubs
        subst hsubs
        obtain ⟨out, hout, hinv⟩ :=
          ih (bx.tokenizeCommandLine cmd).2 (CmdContext.execBody bx run ctx cmd log).1 rest hrest
        refine ⟨out, ?_, ?_⟩
        · rw [execLoop_step bx run ctx fuel cmd log hcmd2, execBody_next]
          exact hout
        · rw [hinv, execBody_invocations]
          cases hexp : expectedCall bx ctx (bx.tokenizeCommandLine cmd).1 <;>
            simp [List.filterMap_cons, hexp]

/-! ## Command dispatcher: the contract -/

/-- C8: with a table built by registering commands whose names have distinct
hashes, and a command line of one sub-command whose tokens are a registered
name and two arguments, `exec` returns and calls exactly one handler, once:
the one registered under that name, with the user data it was registered
with, `argc = 3` and the three tokens as `argv`. -/
theorem exec_single_command (bx : BxLib) (run : Handlers) (regs : List Registration)
    (r : Registration) (arg1 arg2 cmd : String) (fuel : Nat)
    (hnd : (regs.map (fun x => bx.hash x.name)).Nodup) (hr : r ∈ regs)
    (hcmd : cmd.isEmpty = false)
    (htok : bx.tokenizeCommandLine cmd = ([r.name, arg1, arg2], "")) :
    ∃ log, CmdContext.exec bx run (registerAll bx CmdContext.ctor regs) (fuel + 1) cmd = some log
      ∧ invocations log = [CmdEffect.invoke r.fn r.userData 3 [r.name, arg1, arg2]] := by
  have hfind := registerAll_find bx regs CmdContext.ctor hnd (fun _ _ => rfl) r hr
  have htok1 : (bx.tokenizeCommandLine cmd).1 = r.name :: [arg1, arg2] := by rw [htok]
  have hlog := execBody_found bx run (registerAll bx CmdContext.ctor regs) cmd [] r.name
    [arg1, arg2] _ htok1 hfind
  have hnext := execBody_next bx run (registerAll bx CmdContext.ctor regs) cmd []
  rw [htok] at hnext
  refine ⟨(CmdContext.execBody bx run (registerAll bx CmdContext.ctor regs) cmd []).1, ?_, ?_⟩
  · unfold CmdContext.exec
    rw [execLoop_step _ _ _ _ _ _ hcmd, hnext]
    exact execLoop_done _ _ _ _ _ _ rfl
  · rw [hlog]
    simp only [invocations, List.filter_append]
    split_ifs <;> simp [CmdEffect.isInvoke]

/-- Witness of C8: the sample table and the line "name arg1 arg2". -/
theorem exec_single_command_witness :
    ∃ log, CmdContext.exec sampleBx sampleRun (registerAll sampleBx CmdContext.ctor sampleRegs)
        (0 + 1) "name arg1 arg2" = some log
      ∧ invocations log = [CmdEffect.invoke 200 8 3 ["name", "arg1", "arg2"]] :=
  exec_single_command sampleBx sampleRun sampleRegs { name := "name", fn := 200, userData := 8 }
    "arg1" "arg2" "name arg1 arg2" 0 (by decide) (by decide) (by decide) (by decide)

/-- C9, batch isolation and order: `exec` goes through the sub-commands of a
command line from left to right and calls the handler of each sub-command
whose first token is registered exactly once, in that order, whatever the
handlers return and whether or not earlier sub-commands were known. -/
theorem exec_batch_in_order (bx : BxLib) (run : Handlers) (ctx : CmdContext) (fuel : Nat)
    (cmd : String) (subs : List (String × List String))
    (hsubs : subCommands bx fuel cmd = some subs) :
    ∃ log, CmdContext.exec bx run ctx fuel cmd = some log
      ∧ invocations log = subs.filterMap (fun s => expectedCall bx ctx s.2) := by
  obtain ⟨out, hout, hinv⟩ := execLoop_invocations bx run ctx fuel cmd [] subs hsubs
  exact ⟨out, hout, by simpa [invocations] using hinv⟩

/-- Witness of C9: the line "a\nb" on the sample table, where the handler of
`a` returns 5 and the handler of `b` returns 3. -/
theorem exec_batch_in_order_witness :
    subCommands sampleBx 2 "a\nb" = some [("a\nb", ["a"]), ("b", ["b"])]
    ∧ ∃ log, CmdContext.exec sampleBx sampleRun sampleCtx 2 "a\nb" = some log
      ∧ invocations log
          = [("a\nb", ["a"]), ("b", ["b"])].filterMap
              (fun s => expectedCall sampleBx sampleCtx s.2) :=
  ⟨by decide,
   exec_batch_in_order sampleBx sampleRun sampleCtx 2 "a\nb" [("a\nb", ["a"]), ("b", ["b"])]
     (by decide)⟩

/-- C10, as amended: when the first token of a sub-command is registered and
its handler returns `N`, then for `N = 0` the loop of `exec` goes on to the
next sub-command with no diagnostic, and for every `N` other than 0 and -1 it
goes on after the diagnostic "failed" carrying that `N`, and no other one. -/
theorem exec_reports_handler_code (bx : BxLib) (run : Handlers) (ctx : CmdContext)
    (fuel : Nat) (cmd : String) (log : List CmdEffect) (argv0 : String) (rest : List String)
    (next : String) (fn : CmdContext.Func) (N : Int)
    (hcmd : cmd.isEmpty = false)
    (htok : bx.tokenizeCommandLine cmd = (argv0 :: rest, next))
    (hfind : ctx.m_lookup.find (bx.hash argv0) = some fn)
    (hN : run log fn.m_fn fn.m_userData ((argv0 :: rest).length : Nat) (argv0 :: rest) = N) :
    (N = 0 →
      CmdContext.execLoop bx run ctx (fuel + 1) cmd log
        = CmdContext.execLoop bx run ctx fuel next
            (log ++ [CmdEffect.invoke fn.m_fn fn.m_userData ((argv0 :: rest).length : Nat)
                      (argv0 :: rest)]))
    ∧ (N ≠ 0 → N ≠ -1 →
      CmdContext.execLoop bx run ctx (fuel + 1) cmd log
        = CmdContext.execLoop bx run ctx fuel next
            (log ++ [CmdEffect.invoke fn.m_fn fn.m_userData ((argv0 :: rest).length : Nat)
                      (argv0 :: rest),
                     CmdEffect.dbgFailed cmd N])) := by
  have htok1 : (bx.tokenizeCommandLine cmd).1 = argv0 :: rest := by rw [htok]
  have hlog := execBody_found bx run ctx cmd log argv0 rest fn htok1 hfind
  have hnext := execBody_next bx run ctx cmd log
  rw [htok] at hnext
  rw [hN] at hlog
  constructor
  · intro h0
    rw [execLoop_step _ _ _ _ _ _ hcmd, hnext, hlog]
    simp [h0]
  · intro h0 h1
    rw [execLoop_step _ _ _ _ _ _ hcmd, hnext, hlog]
    simp [h0, h1]

/-- Witness of C10: the line "a\nb" on the sample table; the handler of `a`
returns 5. -/
theorem exec_reports_handler_code_witness :
    ((5 : Int) = 0 →
      CmdContext.execLoop sampleBx sampleRun sampleCtx (1 + 1) "a\nb" []
        = CmdContext.execLoop sampleBx sampleRun sampleCtx 1 "b"
            ([] ++ [CmdEffect.invoke 100 7 ((["a"].length : Nat) : Int) ["a"]]))
    ∧ ((5 : Int) ≠ 0 → (5 : Int) ≠ -1 →
      CmdContext.execLoop sampleBx sampleRun sampleCtx (1 + 1) "a\nb" []
        = CmdContext.execLoop sampleBx sampleRun sampleCtx 1 "b"
            ([] ++ [CmdEffect.invoke 100 7 ((["a"].length : Nat) : Int) ["a"],
                     CmdEffect.dbgFailed "a\nb" 5])) :=
  exec_reports_handler_code sampleBx sampleRun sampleCtx 1 "a\nb" [] "a" [] "b"
    { m_fn := 100, m_userData := 7 } 5 (by decide) (by decide) (by decide) (by decide)

/-- Counterexample to C10 as stated: on the sample table the registered
command `a`, whose handler returns the nonzero code -1, makes `exec` report
"doesn't exist" and not "failed" with code -1. -/
theorem exec_handler_code_counterexample :
    ¬ (∀ N : Int, N ≠ 0 →
        ∃ log, CmdContext.exec sampleBx (constRun N) sampleCtx 1 "a" = some log
          ∧ diagnostics log = [CmdEffect.dbgFailed "a" N]) := by
  intro h
  obtain ⟨log, hlog, hdiag⟩ := h (-1) (by decide)
  have heval : CmdContext.exec sampleBx (constRun (-1)) sampleCtx 1 "a"
      = some [CmdEffect.invoke 100 7 1 ["a"], CmdEffect.dbgNotExist "a"] := by decide
  rw [heval] at hlog
  cases hlog
  revert hdiag
  decide

/-- C11: when the first token of a sub-command has a hash that is not a key of
the table, the loop of `exec` calls no handler for it, reports exactly the
diagnostic "doesn't exist" for it and goes on with the following
sub-commands. -/
theorem exec_unknown_command (bx : BxLib) (run : Handlers) (ctx : CmdContext)
    (fuel : Nat) (cmd : String) (log : List CmdEffect) (argv0 : String) (rest : List String)
    (next : String)
    (hcmd : cmd.isEmpty = false)
    (htok : bx.tokenizeCommandLine cmd = (argv0 :: rest, next))
    (hfind : ctx.m_lookup.find (bx.hash argv0) = none) :
    CmdContext.execLoop bx run ctx (fuel + 1) cmd log
      = CmdContext.execLoop bx run ctx fuel next (log ++ [CmdEffect.dbgNotExist cmd]) := by
  have htok1 : (bx.tokenizeCommandLine cmd).1 = argv0 :: rest := by rw [htok]
  have hnext := execBody_next bx run ctx cmd log
  rw [htok] at hnext
  rw [execLoop_step _ _ _ _ _ _ hcmd, hnext,
    execBody_missing bx run ctx cmd log argv0 rest htok1 hfind]

/-- Witness of C11: the line "unknown\nb" on the sample table; the loop goes
on with "b" after the one diagnostic, and the whole run then calls the
handler of `b`. -/
theorem exec_unknown_command_witness :
    (CmdContext.execLoop sampleBx sampleRun sampleCtx (1 + 1) "unknown\nb" []
      = CmdContext.execLoop sampleBx sampleRun sampleCtx 1 "b"
          ([] ++ [CmdEffect.dbgNotExist "unknown\nb"]))
    ∧ CmdContext.exec sampleBx sampleRun sampleCtx 2 "unknown\nb"
        = some [CmdEffect.dbgNotExist "unknown\nb", CmdEffect.invoke 300 9 1 ["b"],
                CmdEffect.dbgFailed "b" 3] :=
  ⟨exec_unknown_command sampleBx sampleRun sampleCtx 1 "unknown\nb" [] "unknown" [] "b"
     (by decide) (by decide) (by decide),
   by decide⟩

/-- C12: a call of `add` with a name whose hash is already a key fails the
check of `add`, and leaves the table as it was: the hash still maps to the
handler and user data of the earlier registration, and the table has as many
entries as before. -/
theorem add_existing_hash_keeps_entry (bx : BxLib) (ctx : CmdContext) (_name : String)
    (_fn : ConsoleFn) (_userData : Nat) (earlier : CmdContext.Func)
    (hfind : ctx.m_lookup.find (bx.hash _name) = some earlier) :
    ctx.addCheck bx _name = false
    ∧ (ctx.add bx _name _fn _userData).m_lookup.find (bx.hash _name) = some earlier
    ∧ (ctx.add bx _name _fn _userData).m_lookup.length = ctx.m_lookup.length
    ∧ ctx.add bx _name _fn _userData = ctx := by
  have hadd : ctx.add bx _name _fn _userData = ctx := by
    simp [CmdContext.add, CmdContext.CmdLookup.insert, hfind]
  refine ⟨by simp [CmdContext.addCheck, hfind], ?_, ?_, hadd⟩
  · rw [hadd]
    exact hfind
  · rw [hadd]

/-- Witness of C12: on the table holding "Aa", registering "BB", whose hash is
the same, with another handler. -/
theorem add_existing_hash_keeps_entry_witness :
    collidingCtx.addCheck collidingBx "BB" = false
    ∧ (collidingCtx.add collidingBx "BB" 500 12).m_lookup.find (collidingBx.hash "BB")
        = some { m_fn := 400, m_userData := 11 }
    ∧ (collidingCtx.add collidingBx "BB" 500 12).m_lookup.length = collidingCtx.m_lookup.length
    ∧ collidingCtx.add collidingBx "BB" 500 12 = collidingCtx :=
  add_existing_hash_keeps_entry collidingBx collidingCtx "BB" 500 12
    { m_fn := 400, m_userData := 11 } (by decide)

/-- C13: a call of `add` with a name whose hash is not yet a key makes the
table one entry larger; afterwards that hash maps to the given handler and
user data, and every other key maps to what it mapped to before. -/
theorem add_new_hash_grows_by_one (bx : BxLib) (ctx : CmdContext) (_name : String)
    (_fn : ConsoleFn) (_userData : Nat)
    (hfind : ctx.m_lookup.find (bx.hash _name) = none) :
    (ctx.add bx _name _fn _userData).m_lookup.length = ctx.m_lookup.length + 1
    ∧ (ctx.add bx _name _fn _userData).m_lookup.find (bx.hash _name)
        = some { m_fn := _fn, m_userData := _userData }
    ∧ ∀ key : Nat, key ≠ bx.hash _name →
        (ctx.add bx _name _fn _userData).m_lookup.find key = ctx.m_lookup.find key := by
  refine ⟨?_, ?_, ?_⟩
  · simp [CmdContext.add, CmdContext.CmdLookup.insert, hfind]
  · simp only [CmdContext.add]
    exact CmdContext.CmdLookup.find_insert_self _ _ _ hfind
  · intro key hkey
    simp only [CmdContext.add]
    exact CmdContext.CmdLookup.find_insert_of_ne _ _ _ _ (fun h => hkey h.symm)

/-- Witness of C13: registering "c" on the sample table of three commands. -/
theorem add_new_hash_grows_by_one_witness :
    (sampleCtx.add sampleBx "c" 600 13).m_lookup.length = sampleCtx.m_lookup.length + 1
    ∧ (sampleCtx.add sampleBx "c" 600 13).m_lookup.find (sampleBx.hash "c")
        = some { m_fn := 600, m_userData := 13 }
    ∧ ∀ key : Nat, key ≠ sampleBx.hash "c" →
        (sampleCtx.add sampleBx "c" 600 13).m_lookup.find key = sampleCtx.m_lookup.find key :=
  add_new_hash_grows_by_one sampleBx sampleCtx "c" 600 13 (by decide)

/-- C15: a sub-command with no token makes the loop of `exec` go on with the
next sub-command with the effects unchanged: no handler call, no diagnostic. -/
theorem exec_skips_empty_sub_command (bx : BxLib) (run : Handlers) (ctx : CmdContext)
    (fuel : Nat) (cmd : String) (log : List CmdEffect) (next : String)
    (hcmd : cmd.isEmpty = false)
    (htok : bx.tokenizeCommandLine cmd = ([], next)) :
    CmdContext.execLoop bx run ctx (fuel + 1) cmd log
      = CmdContext.execLoop bx run ctx fuel next log := by
  have htok1 : (bx.tokenizeCommandLine cmd).1 = [] := by rw [htok]
  have hnext := execBody_next bx run ctx cmd log
  rw [htok] at hnext
  rw [execLoop_step _ _ _ _ _ _ hcmd, hnext, execBody_no_token bx run ctx cmd log htok1]

/-- Witness of C15: the line "\nb" on the sample table; its first sub-command
is empty, and the whole run has the effects of "b" alone. -/
theorem exec_skips_empty_sub_command_witness :
    (CmdContext.execLoop sampleBx sampleRun sampleCtx (1 + 1) "\nb" []
      = CmdContext.execLoop sampleBx sampleRun sampleCtx 1 "b" [])
    ∧ CmdContext.exec sampleBx sampleRun sampleCtx 2 "\nb"
        = some [CmdEffect.invoke 300 9 1 ["b"], CmdEffect.dbgFailed "b" 3] :=
  ⟨exec_skips_empty_sub_command sampleBx sampleRun sampleCtx 1 "\nb" [] "b"
     (by decide) (by decide),
   by decide⟩

/-- C18: dispatch sees the first token through its hash only. When the first
token `tok0` of a sub-command has the hash of a name under which the table
holds an entry, the loop of `exec` calls the handler of that entry, with its
user data, and passes the tokens of the sub-command, `tok0` first, whether or
not `tok0` is that name. -/
theorem exec_dispatches_on_hash (bx : BxLib) (run : Handlers) (ctx : CmdContext)
    (cmd : String) (log : List CmdEffect) (tok0 name : String) (rest : List String)
    (next : String) (fn : CmdContext.Func)
    (htok : bx.tokenizeCommandLine cmd = (tok0 :: rest, next))
    (hhash : bx.hash tok0 = bx.hash name)
    (hfind : ctx.m_lookup.find (bx.hash name) = some fn) :
    ctx.m_lookup.find (bx.hash tok0) = ctx.m_lookup.find (bx.hash name)
    ∧ invocations (CmdContext.execBody bx run ctx cmd log).1
        = invocations log
            ++ [CmdEffect.invoke fn.m_fn fn.m_userData ((tok0 :: rest).length : Nat)
                  (tok0 :: rest)] := by
  have htok1 : (bx.tokenizeCommandLine cmd).1 = tok0 :: rest := by rw [htok]
  have hfind0 : ctx.m_lookup.find (bx.hash tok0) = some fn := by rw [hhash]; exact hfind
  refine ⟨by rw [hhash], ?_⟩
  rw [execBody_invocations, htok1]
  simp [expectedCall, hfind0]

/-- Witness of C18: the table holds "Aa" only; the line "BB x", whose first
token has the hash of "Aa", calls the handler of "Aa" with "BB" as first
token. -/
theorem exec_dispatches_on_hash_witness :
    ("BB" ≠ "Aa" ∧ collidingBx.hash "BB" = collidingBx.hash "Aa")
    ∧ collidingCtx.m_lookup.find (collidingBx.hash "BB")
        = collidingCtx.m_lookup.find (collidingBx.hash "Aa")
    ∧ invocations (CmdContext.execBody collidingBx sampleRun collidingCtx "BB x" []).1
        = invocations []
            ++ [CmdEffect.invoke 400 11 ((["BB", "x"].length : Nat) : Int) ["BB", "x"]] :=
  ⟨by decide,
   exec_dispatches_on_hash collidingBx sampleRun collidingCtx "BB x" [] "BB" "Aa" ["x"] ""
     { m_fn := 400, m_userData := 11 } (by decide) (by decide) (by decide)⟩

namespace entry

/-- C14, the Char round trip: `postCharEvent(h, len, c)` on an empty queue,
then `poll()`, returns a Char event with handle `h`, length `len` and the four
bytes of `c`, and leaves the queue empty; so for length 3 and the bytes
0x41, 0x42, 0x43, 0x00 the polled event has length 3 and these bytes. -/
theorem char_event_round_trip :
    (∀ (h : WindowHandle) (len : Nat) (c : Char4),
      (EventQueue.ctor.postCharEvent h len c).poll
        = (some (AnyEvent.char { m_type := Event.Enum.Char, m_handle := h, m_len := len,
                                 m_char := c }),
           EventQueue.ctor))
    ∧ ∀ h : WindowHandle,
      (EventQueue.ctor.postCharEvent h 3 { c0 := 0x41, c1 := 0x42, c2 := 0x43, c3 := 0x00 }).poll
        = (some (AnyEvent.char { m_type := Event.Enum.Char, m_handle := h, m_len := 3,
                                 m_char := { c0 := 0x41, c1 := 0x42, c2 := 0x43, c3 := 0x00 } }),
           EventQueue.ctor) :=
  ⟨fun _ _ _ => rfl, fun _ => rfl⟩

/-- C16: every posting function leaves the events already in the queue as
they are and appends one event at the back, which carries the kind tag of the
function, the window handle passed in and the arguments as payload. -/
theorem post_appends_one_event (q : EventQueue) :
    (∀ (h : WindowHandle) (g : GamepadHandle) (a : GamepadAxis.Enum) (v : Int),
      (q.postAxisEvent h g a v).m_queue
        = q.m_queue ++ [AnyEvent.axis { m_type := Event.Enum.Axis, m_handle := h,
                                        m_axis := a, m_value := v, m_gamepad := g }])
    ∧ (∀ (h : WindowHandle) (len : Nat) (c : Char4),
      (q.postCharEvent h len c).m_queue
        = q.m_queue ++ [AnyEvent.char { m_type := Event.Enum.Char, m_handle := h,
                                        m_len := len, m_char := c }])
    ∧ (∃ ev : ExitEvent, ev.m_type = Event.Enum.Exit
        ∧ q.postExitEvent.m_queue = q.m_queue ++ [AnyEvent.exit ev])
    ∧ (∀ (h : WindowHandle) (g : GamepadHandle) (c : Bool),
      (q.postGamepadEvent h g c).m_queue
        = q.m_queue ++ [AnyEvent.gamepad { m_type := Event.Enum.Gamepad, m_handle := h,
                                           m_gamepad := g, m_connected := c }])
    ∧ (∀ (h : WindowHandle) (k : Key.Enum) (m : Nat) (d : Bool),
      (q.postKeyEvent h k m d).m_queue
        = q.m_queue ++ [AnyEvent.key { m_type := Event.Enum.Key, m_handle := h,
                                       m_key := k, m_modifiers := m, m_down := d }])
    ∧ (∀ (h : WindowHandle) (x y z : Int),
      ∃ ev : MouseEvent, ev.m_type = Event.Enum.Mouse ∧ ev.m_handle = h
        ∧ ev.m_mx = x ∧ ev.m_my = y ∧ ev.m_mz = z
        ∧ (q.postMouseEvent h x y z).m_queue = q.m_queue ++ [AnyEvent.mouse ev])
    ∧ (∀ (h : WindowHandle) (x y z : Int) (b : MouseButton.Enum) (d : Bool),
      ∃ ev : MouseEvent, ev.m_type = Event.Enum.Mouse ∧ ev.m_handle = h
        ∧ ev.m_mx = x ∧ ev.m_my = y ∧ ev.m_mz = z
        ∧ (q.postMouseEventButton h x y z b d).m_queue = q.m_queue ++ [AnyEvent.mouse ev])
    ∧ (∀ (h : WindowHandle) (w ht : Nat),
      (q.postSizeEvent h w ht).m_queue
        = q.m_queue ++ [AnyEvent.size { m_type := Event.Enum.Size, m_handle := h,
                                        m_width := w, m_height := ht }])
    ∧ (∀ (h : WindowHandle) (nwh : Nat),
      (q.postWindowEvent h nwh).m_queue
        = q.m_queue ++ [AnyEvent.window { m_type := Event.Enum.Window, m_handle := h,
                                          m_nwh := nwh }])
    ∧ (∀ (h : WindowHandle) (s : Suspend.Enum),
      (q.postSuspendEvent h s).m_queue
        = q.m_queue ++ [AnyEvent.suspend { m_type := Event.Enum.Suspend, m_handle := h,
                                           m_state := s }])
    ∧ (∀ (h : WindowHandle) (p : FilePath),
      (q.postDropFileEvent h p).m_queue
        = q.m_queue ++ [AnyEvent.dropFile { m_type := Event.Enum.DropFile, m_handle := h,
                                            m_filePath := p }]) :=
  ⟨fun _ _ _ _ => rfl, fun _ _ _ => rfl, ⟨_, rfl, rfl⟩, fun _ _ _ => rfl,
   fun _ _ _ _ => rfl, fun _ _ _ _ => ⟨_, rfl, rfl, rfl, rfl, rfl, rfl⟩,
   fun _ _ _ _ _ _ => ⟨_, rfl, rfl, rfl, rfl, rfl, rfl⟩, fun _ _ _ => rfl,
   fun _ _ => rfl, fun _ _ => rfl, fun _ _ => rfl⟩

/-- C17: the two mouse posts differ in what they enqueue. The one without a
button enqueues a Mouse event with the coordinates given, `m_move` true,
`m_down` false and button `MouseButton::None`; the one with a button enqueues
a Mouse event with the coordinates given, `m_move` false and the button and
the down flag given. The two events are never equal. -/
theorem mouse_posts_distinguishable (q : EventQueue) (h : WindowHandle) (x y z : Int) :
    (q.postMouseEvent h x y z).m_queue
      = q.m_queue ++ [AnyEvent.mouse { m_type := Event.Enum.Mouse, m_handle := h,
                                       m_mx := x, m_my := y, m_mz := z,
                                       m_button := MouseButton.None, m_down := false,
                                       m_move := true }]
    ∧ (∀ (b : MouseButton.Enum) (d : Bool),
      (q.postMouseEventButton h x y z b d).m_queue
        = q.m_queue ++ [AnyEvent.mouse { m_type := Event.Enum.Mouse, m_handle := h,
                                         m_mx := x, m_my := y, m_mz := z,
                                         m_button := b, m_down := d, m_move := false }])
    ∧ ∀ (b : MouseButton.Enum) (d : Bool),
      (EventQueue.ctor.postMouseEvent h x y z).poll.1
        ≠ (EventQueue.ctor.postMouseEventButton h x y z b d).poll.1 := by
  refine ⟨rfl, fun _ _ => rfl, ?_⟩
  intro b d hEq
  simp [EventQueue.postMouseEvent, EventQueue.postMouseEventButton, EventQueue.emplace,
    EventQueue.poll, EventQueue.ctor] at hEq

/-- C19: an event that is not an Exit event and carries the invalid sentinel
handle, at the front of the queue, is returned to no valid handle: `poll(h)`
returns no event and leaves the queue as it is for every valid `h`, while
`poll()` and `poll` with the sentinel handle return and remove it. -/
theorem sentinel_event_matches_no_window (ev : AnyEvent) (rest : List AnyEvent)
    (htype : ev.base.m_type ≠ Event.Enum.Exit)
    (hsent : ev.base.m_handle.idx = UINT16_MAX) :
    (∀ h : WindowHandle, isValid h = true →
      (EventQueue.mk (ev :: rest)).pollHandle h = (none, EventQueue.mk (ev :: rest)))
    ∧ (EventQueue.mk (ev :: rest)).poll = (some ev, EventQueue.mk rest)
    ∧ (EventQueue.mk (ev :: rest)).pollHandle { idx := UINT16_MAX }
        = (some ev, EventQueue.mk rest) := by
  refine ⟨?_, rfl, ?_⟩
  · intro h hv
    have hne : ¬ (UINT16_MAX = h.idx) := by simpa [isValid] using hv
    simp [EventQueue.pollHandle, hv, htype, hsent, hne]
  · simp [EventQueue.pollHandle, isValid, EventQueue.poll]

/-- Witness of C19: a Key event posted with the sentinel handle 65535, in
front of a Size event of window 1. -/
theorem sentinel_event_matches_no_window_witness :
    (∀ h : WindowHandle, isValid h = true →
      ((EventQueue.ctor.postKeyEvent { idx := 65535 } 5 0 true).postSizeEvent
          { idx := 1 } 640 480).pollHandle h
        = (none, (EventQueue.ctor.postKeyEvent { idx := 65535 } 5 0 true).postSizeEvent
            { idx := 1 } 640 480))
    ∧ ((EventQueue.ctor.postKeyEvent { idx := 65535 } 5 0 true).postSizeEvent
          { idx := 1 } 640 480).poll
        = (some (PostCall.key { idx := 65535 } 5 0 true).event,
           EventQueue.ctor.postSizeEvent { idx := 1 } 640 480)
    ∧ ((EventQueue.ctor.postKeyEvent { idx := 65535 } 5 0 true).postSizeEvent
          { idx := 1 } 640 480).pollHandle { idx := UINT16_MAX }
        = (some (PostCall.key { idx := 65535 } 5 0 true).event,
           EventQueue.ctor.postSizeEvent { idx := 1 } 640 480) :=
  sentinel_event_matches_no_window (PostCall.key { idx := 65535 } 5 0 true).event
    [(PostCall.size { idx := 1 } 640 480).event] (by decide) (by decide)

/-- C20: the event appended by `postExitEvent` has the kind tag Exit and the
owning handle of index 0; that handle is valid and is not the sentinel
`UINT16_MAX`; an Exit event posted on an empty queue and polled back has
window 0 as its owner. -/
theorem exit_event_owned_by_window_zero (q : EventQueue) :
    q.postExitEvent.m_queue
      = q.m_queue ++ [AnyEvent.exit { m_type := Event.Enum.Exit, m_handle := { idx := 0 } }]
    ∧ isValid { idx := 0 } = true
    ∧ (0 : Nat) ≠ UINT16_MAX
    ∧ EventQueue.ctor.postExitEvent.poll
        = (some (AnyEvent.exit { m_type := Event.Enum.Exit, m_handle := { idx := 0 } }),
           EventQueue.ctor)
    ∧ (EventQueue.ctor.postExitEvent.poll.1.map (fun ev => ev.base.m_handle.idx)) = some 0 :=
  ⟨rfl, by decide, by decide, rfl, rfl⟩

end entry
